import Mathlib

/-!
Verification of the plot-geometry resolution and raster-clipping pipeline of the
terraref/drone-pipeline repository, as implemented in
`extractors-canopycover/drone_canopycover.py` and
`extractors-clipbyshape/terra_clipbyshape.py`.

The Python source is shallowly embedded: Python floats are modelled by `PFloat`
(a rational value or NaN, with IEEE comparison semantics), external collaborator
calls (gdal, the identify probe, clip_raster) are modelled by oracle inputs, and
exception raising and catching is modelled with `Except`.
-/

namespace DronePipeline

/-- Model of a Python float as used by the geometry code: either NaN (as produced
by `from numpy import nan` and by failed geotransform reads) or a rational value. -/
inductive PFloat where
  | nan : PFloat
  | val : ℚ → PFloat
deriving DecidableEq, Repr

/-- Python `!=` on floats, with IEEE semantics: NaN compares unequal to
everything, including itself.  This is the semantics of the source check
`bounds[0] != nan` in `find_needed_files`. -/
def pfNe : PFloat → PFloat → Bool
  | PFloat.nan, _ => true
  | _, PFloat.nan => true
  | PFloat.val a, PFloat.val b => decide (a ≠ b)

/-- Python `<` on floats, with IEEE semantics: any comparison with NaN is false.
Used by the min/max scans in `polygon_to_tuples`. -/
def pfLt : PFloat → PFloat → Bool
  | PFloat.val a, PFloat.val b => decide (a < b)
  | _, _ => false

/-- Python `str.find`: the lowest index at which the pattern occurs in the
string, or -1 when it does not occur. -/
def strFindAux (hay pat : List Char) : Option Nat :=
  (List.range (hay.length + 1 - pat.length)).find?
    (fun i => decide ((hay.drop i).take pat.length = pat))

/-- Python `str.find` on `String`, returning an `Int` so that -1 (not found) is
representable. -/
def pyFind (s pat : String) : Int :=
  match strFindAux s.toList pat.toList with
  | some i => (i : Int)
  | none => -1

/-- Python `str.endswith`. -/
def pyEndsWith (s suf : String) : Bool :=
  List.isSuffixOf suf.toList s.toList

/-- Python `str.lower` (ASCII lowering suffices for DBF column names). -/
def pyLower (s : String) : String :=
  String.mk (s.toList.map Char.toLower)

/-- Model of `os.path.basename`: the part of the path after the last slash. -/
def basename (p : String) : String :=
  String.mk (p.toList.foldl (fun acc c => if c = '/' then [] else acc ++ [c]) [])

/-- Index of the dot at which `os.path.splitext` splits a basename: the last dot
that has some non-dot character before it (names consisting only of leading dots
have no extension). -/
def lastValidDot (cs : List Char) : Option Nat :=
  ((List.range cs.length).filter
    (fun i => decide (cs.get? i = some '.') && (cs.take i).any (fun c => decide (c ≠ '.')))).getLast?

/-- Model of `os.path.splitext(b)[0]`: the basename without its extension. -/
def splitextRoot (b : String) : String :=
  match lastValidDot b.toList with
  | some i => String.mk (b.toList.take i)
  | none => b

/-- Model of `os.path.splitext(b)[1].lstrip(".")`: the extension of a basename
without the leading dot. -/
def extOf (b : String) : String :=
  match lastValidDot b.toList with
  | some i => String.mk (b.toList.drop (i + 1))
  | none => ""

/-- Outcome of `gdal.Open(filename)` followed by `GetGeoTransform()` for one
raster file: `none` models the exception path (no resolvable geotransform), and
`some` carries the affine geotransform components and raster dimensions used by
the source. -/
structure GeoInfo where
  ulx : ℚ
  xres : ℚ
  uly : ℚ
  yres : ℚ
  rasterXSize : ℚ
  rasterYSize : ℚ
deriving DecidableEq, Repr

/-- Embedding of `image_get_geobounds` (drone_canopycover.py lines 238-262):
on success return `[ulx, uly, lrx, lry]` with the lower-right corner computed
from the geotransform; on any exception return `[nan, nan, nan, nan]`. -/
def image_get_geobounds (g : Option GeoInfo) : List PFloat :=
  match g with
  | some s =>
      [PFloat.val s.ulx, PFloat.val s.uly,
       PFloat.val (s.ulx + s.rasterXSize * s.xres),
       PFloat.val (s.uly + s.rasterYSize * s.yres)]
  | none => [PFloat.nan, PFloat.nan, PFloat.nan, PFloat.nan]

/-- Embedding of the ring built in `find_needed_files` (drone_canopycover.py
lines 356-361): upper left, upper right, lower right, lower left, and the
closing repetition of the first point. -/
def rasterRing (b : List PFloat) : List (PFloat × PFloat) :=
  [(b.getD 0 PFloat.nan, b.getD 1 PFloat.nan),
   (b.getD 2 PFloat.nan, b.getD 1 PFloat.nan),
   (b.getD 2 PFloat.nan, b.getD 3 PFloat.nan),
   (b.getD 0 PFloat.nan, b.getD 3 PFloat.nan),
   (b.getD 0 PFloat.nan, b.getD 1 PFloat.nan)]

/-- One update step of the running minimum in `polygon_to_tuples`: Python
`if min_x is None or pt_x < min_x`. -/
def updMin (cur : Option PFloat) (p : PFloat) : Option PFloat :=
  match cur with
  | none => some p
  | some c => if pfLt p c then some p else some c

/-- One update step of the running maximum in `polygon_to_tuples`: Python
`if max_x is None or pt_x > max_x`. -/
def updMax (cur : Option PFloat) (p : PFloat) : Option PFloat :=
  match cur with
  | none => some p
  | some c => if pfLt c p then some p else some c

/-- Embedding of `polygon_to_tuples` (drone_canopycover.py lines 264-296):
scan the points of the ring and return `(min_y, max_y, min_x, max_x)`. -/
def polygon_to_tuples (ring : List (PFloat × PFloat)) :
    Option PFloat × Option PFloat × Option PFloat × Option PFloat :=
  let st := ring.foldl
    (fun acc pt =>
      let (mny, mxy, mnx, mxx) := acc
      (updMin mny pt.2, updMax mxy pt.2, updMin mnx pt.1, updMax mxx pt.1))
    (none, none, none, none)
  st

/-- One raster entry of the `imagefiles` dictionary built by
`find_needed_files`: the extent polygon and its bounding tuple. -/
structure RasterEntry where
  bounds : List (PFloat × PFloat)
  bounding_tuples : Option PFloat × Option PFloat × Option PFloat × Option PFloat
deriving DecidableEq, Repr

/-- One candidate file of the input file list, together with the outcomes of the
two external probes the source consults for it: `isImage` is the result of
`file_is_image_type` (the identify binary, an out-of-scope collaborator) and
`geo` the outcome of the gdal geotransform read. -/
structure CandidateFile where
  name : String
  isImage : Bool
  geo : Option GeoInfo
deriving DecidableEq, Repr

/-- Result of `find_needed_files`: the selected shapefile, its optional DBF
file, and the catalog of georeferenced image files. -/
structure FoundFiles where
  shapefile : Option String
  dbffile : Option String
  imagefiles : List (String × RasterEntry)
deriving DecidableEq, Repr

/-- File extensions skipped without probing (drone_canopycover.py lines 139-144). -/
def known_non_image_ext : List String :=
  ["dbf", "json", "prj", "shp", "shx", "txt"]

/-- Python dictionary assignment `imagefiles[onefile] = entry`: replace the
entry when the key is already present, otherwise append. -/
def dictInsert (m : List (String × RasterEntry)) (k : String) (v : RasterEntry) :
    List (String × RasterEntry) :=
  if m.any (fun p => p.1 = k) then
    m.map (fun p => if p.1 = k then (k, v) else p)
  else
    m ++ [(k, v)]

/-- One iteration of the file loop of `find_needed_files` (drone_canopycover.py
lines 329-373), translated branch by branch.  The NaN guard of the source is
the IEEE comparison `bounds[0] != nan`, embedded as `pfNe`. -/
def fnfStep (trigger : Option String) (st : FoundFiles) (f : CandidateFile) : FoundFiles :=
  if pyEndsWith f.name ".shp" && st.shapefile.isNone then
    let dbf :=
      match st.dbffile with
      | some d =>
          if pyEndsWith f.name (splitextRoot (basename d) ++ ".shp") then some d else none
      | none => none
    { st with shapefile := some f.name, dbffile := dbf }
  else if pyEndsWith f.name ".dbf" then
    if (match st.shapefile with
        | some s => pyEndsWith s (splitextRoot (basename f.name) ++ ".shp")
        | none => false) ||
       trigger.isNone ||
       (match trigger with
        | some t => pyEndsWith t (splitextRoot (basename f.name) ++ ".shp")
        | none => false) then
      { st with dbffile := some f.name }
    else st
  else if extOf (basename f.name) ∈ known_non_image_ext then st
  else if (match trigger with
           | some t => pyEndsWith t (basename f.name)
           | none => false) ||
          (trigger.isNone && f.isImage) then
    if pfNe ((image_get_geobounds f.geo).getD 0 PFloat.nan) PFloat.nan then
      let poly := rasterRing (image_get_geobounds f.geo)
      let entry : RasterEntry := { bounds := poly, bounding_tuples := polygon_to_tuples poly }
      { st with imagefiles := dictInsert st.imagefiles f.name entry }
    else st
  else st

/-- Embedding of `find_needed_files` (drone_canopycover.py lines 300-376). -/
def find_needed_files (files : List CandidateFile) (trigger : Option String) : FoundFiles :=
  files.foldl (fnfStep trigger) { shapefile := none, dbffile := none, imagefiles := [] }

/-- Embedding of the overlap acceptance test (drone_canopycover.py lines
725-729, terra_clipbyshape.py lines 611-615): the source skips the image
exactly when `intersection.GetArea() == 0.0`, so a pair is accepted exactly
when the intersection area is nonzero. -/
def overlapAccepted (area : ℚ) : Bool :=
  if area = 0 then false else true

/-- The pairs of the inner image loop that survive the overlap test, each pair
carrying the intersection area computed for it by the geometry library. -/
def acceptedPairs (pairs : List (String × ℚ)) : List (String × ℚ) :=
  pairs.filter (fun p => overlapAccepted p.2)

/-- Geometry-library operations the overlap check can perform on polygons. -/
inductive GeoOp where
  | cloneOp : GeoOp
  | transformOp : GeoOp
  | intersectOp : GeoOp
  | areaOp : GeoOp
deriving DecidableEq, Repr

/-- Embedding of the per-pair overlap check of the canopy-cover extractor
(drone_canopycover.py lines 720-729): the stored extent polygon
`imagefiles[filename]` is passed directly to `plot_poly.Intersection` and its
area is taken.  The reference systems of the plot and of the raster are taken
as arguments to record that the source never consults them: no clone is made
and no transform is performed.  The result is the list of geometry operations
performed and the polygon that was passed to `Intersection`. -/
def cc_overlap_check (plotRef rasterRef : String) (stored : List (PFloat × PFloat)) :
    List GeoOp × List (PFloat × PFloat) :=
  let _ := plotRef
  let _ := rasterRef
  ([GeoOp.intersectOp, GeoOp.areaOp], stored)

/-- Outcome of one external `clip_raster` call, as observed by the inner loop:
the call can raise, return `None`, or return a pixel buffer, of which only the
number of dimensions of its shape matters to the source. -/
inductive ClipCall where
  | raises : String → ClipCall
  | noneBuf : ClipCall
  | buffer : Nat → ClipCall
deriving DecidableEq, Repr

/-- Outcome of one external `calculate_canopycover` call: the call can raise or
produce a value. -/
inductive ScoreCall where
  | raises : String → ScoreCall
  | value : ℚ → ScoreCall
deriving DecidableEq, Repr

/-- The body of the try block of the canopy-cover inner loop
(drone_canopycover.py lines 737-772) before the except clause is applied:
a clip that returns `None` or a buffer with fewer than 3 dimensions is a logged
skip (`.ok none`), a successful clip and score produces a row value, and an
exception raised by either external call propagates as `.error`. -/
def cc_clip_and_score (clip : ClipCall) (score : ScoreCall) : Except String (Option ℚ) :=
  match clip with
  | ClipCall.raises m => Except.error m
  | ClipCall.noneBuf => Except.ok none
  | ClipCall.buffer dims =>
      if dims < 3 then Except.ok none
      else
        match score with
        | ScoreCall.raises m => Except.error m
        | ScoreCall.value v => Except.ok (some v)

/-- The broad `except Exception` handler wrapped around the clip-and-score
block (drone_canopycover.py lines 774-778): any exception becomes a log entry
plus `continue`, i.e. a skip. -/
def pyTryExcept (x : Except String (Option ℚ)) : Except String (Option ℚ) :=
  match x with
  | Except.error _ => Except.ok none
  | Except.ok v => Except.ok v

/-- One full (plot, raster) step of the canopy-cover inner loop: the try block
with its handler. -/
def cc_pair_step (clip : ClipCall) (score : ScoreCall) : Except String (Option ℚ) :=
  pyTryExcept (cc_clip_and_score clip score)

/-- The inner raster loop of the canopy-cover extractor for one plot: rows are
collected in raster order, a skip advances to the next raster, and an uncaught
exception would abort the whole run. -/
def cc_run_inner (plot : String) (oracle : String → String → ClipCall × ScoreCall) :
    List String → Except String (List (String × String × ℚ))
  | [] => Except.ok []
  | r :: rest =>
      match cc_pair_step (oracle plot r).1 (oracle plot r).2 with
      | Except.error e => Except.error e
      | Except.ok none => cc_run_inner plot oracle rest
      | Except.ok (some v) =>
          match cc_run_inner plot oracle rest with
          | Except.error e => Except.error e
          | Except.ok rows => Except.ok ((plot, r, v) :: rows)

/-- The plot-by-raster double loop of the canopy-cover extractor
(drone_canopycover.py lines 701-782), restricted to its clip-and-score rows. -/
def cc_run (plots rasters : List String) (oracle : String → String → ClipCall × ScoreCall) :
    Except String (List (String × String × ℚ)) :=
  match plots with
  | [] => Except.ok []
  | p :: rest =>
      match cc_run_inner p oracle rasters with
      | Except.error e => Except.error e
      | Except.ok rows =>
          match cc_run rest rasters oracle with
          | Except.error e => Except.error e
          | Except.ok more => Except.ok (rows ++ more)

/-- One (plot, raster) step of the clip-by-shape inner loop
(terra_clipbyshape.py lines 635-641): `clip_raster` is called with no
enclosing try block, so a raised exception propagates; a `None` result is a
logged skip; a buffer proceeds to the upload steps. -/
def cbs_pair_step (clip : ClipCall) : Except String (Option Unit) :=
  match clip with
  | ClipCall.raises m => Except.error m
  | ClipCall.noneBuf => Except.ok none
  | ClipCall.buffer _ => Except.ok (some ())

/-- The inner raster loop of the clip-by-shape extractor for one plot. -/
def cbs_run_inner (plot : String) (oracle : String → String → ClipCall) :
    List String → Except String (List (String × String))
  | [] => Except.ok []
  | r :: rest =>
      match cbs_pair_step (oracle plot r) with
      | Except.error e => Except.error e
      | Except.ok none => cbs_run_inner plot oracle rest
      | Except.ok (some _) =>
          match cbs_run_inner plot oracle rest with
          | Except.error e => Except.error e
          | Except.ok rows => Except.ok ((plot, r) :: rows)

/-- The plot-by-raster double loop of the clip-by-shape extractor
(terra_clipbyshape.py lines 569-670), restricted to its clip step. -/
def cbs_run (plots rasters : List String) (oracle : String → String → ClipCall) :
    Except String (List (String × String)) :=
  match plots with
  | [] => Except.ok []
  | p :: rest =>
      match cbs_run_inner p oracle rasters with
      | Except.error e => Except.error e
      | Except.ok rows =>
          match cbs_run rest rasters oracle with
          | Except.error e => Except.error e
          | Except.ok more => Except.ok (rows ++ more)

/-- A (plot, raster) pairing whose clip-and-score step fails: the clip raises,
returns no buffer, returns a buffer with fewer than 3 dimensions, or the score
raises. -/
def pairFails : ClipCall → ScoreCall → Bool
  | ClipCall.raises _, _ => true
  | ClipCall.noneBuf, _ => true
  | ClipCall.buffer dims, s =>
      if dims < 3 then true
      else
        match s with
        | ScoreCall.raises _ => true
        | ScoreCall.value _ => false

/-- Rational version of the raster extent ring for a resolvable geotransform,
with bounds `[ulx, uly, lrx, lry]` (drone_canopycover.py lines 356-361). -/
def rasterRingQ (ulx uly lrx lry : ℚ) : List (ℚ × ℚ) :=
  [(ulx, uly), (lrx, uly), (lrx, lry), (ulx, lry), (ulx, uly)]

/-- Shoelace sum over the consecutive point pairs of a closed ring. -/
def shoelaceSum : List (ℚ × ℚ) → ℚ
  | a :: b :: rest => (a.1 * b.2 - b.1 * a.2) + shoelaceSum (b :: rest)
  | _ => 0

/-- Signed area of a closed ring: positive for counter-clockwise rings in a
y-up coordinate system, negative for clockwise ones. -/
def signedArea (pts : List (ℚ × ℚ)) : ℚ :=
  shoelaceSum pts / 2

/-- Unsigned ring area, as returned by the geometry library `GetArea`. -/
def ringArea (pts : List (ℚ × ℚ)) : ℚ :=
  |signedArea pts|

/-- A row of the DBF attribute table, as a sequence of column-name and value
pairs (values are modelled after the `str(...)` conversion the source applies
to them). -/
def DbfRow : Type := List (String × String)

/-- Python dictionary lookup `row[column]`: the value at the column, or `none`
for the KeyError case. -/
def row_lookup (row : DbfRow) (k : String) : Option String :=
  (List.find? (fun p => p.1 = k) row).map (fun p => p.2)

/-- Field names as reported by `DBF(dbffile, lowernames=True, ...)`
(drone_canopycover.py line 646): the `lowernames=True` option of the dbfread
collaborator lowercases every field name (and every record key). -/
def dbf_field_names (raw : List String) : List String :=
  raw.map pyLower

/-- Lowercasing of one record of the attribute table, the record-key half of
the `lowernames=True` behaviour. -/
def lower_row (row : DbfRow) : DbfRow :=
  row.map (fun p => (pyLower p.1, p.2))

/-- The per-column match condition of the plot-name column scan
(drone_canopycover.py lines 657-669), translated with its exact Python
truthiness: `one_name.find("id")` is truthy whenever it is nonzero, so a -1
(not found) also satisfies the third disjunct of the middle condition. -/
def plot_column_match (n : String) : Bool :=
  (n = "observationUnitName" : Bool) ||
  (decide (0 ≤ pyFind n "plot") &&
    (decide (0 ≤ pyFind n "name") || decide (pyFind n "id" ≠ 0))) ||
  (n = "id" : Bool)

/-- The column scan loop: the first column matching any of the three
conditions is taken (the loop breaks on the first hit). -/
def column_scan (names : List String) : Option String :=
  names.find? plot_column_match

/-- Model of constructing (without raising) a `ValueError` object, as the
source does on its two unreachable-error paths (drone_canopycover.py lines
653-654 and 671-672): the construction has no control-flow effect. -/
def value_error_message (m : String) : String := m

/-- Embedding of the plot-name column resolution (drone_canopycover.py lines
649-672), operating on the already-lowercased field names: when a hint is
supplied it is kept even if absent from the columns (the `ValueError` on that
path is constructed but never raised), and only a missing hint triggers the
column scan. -/
def resolve_plot_column (hint : Option String) (column_names : List String) :
    Except String (Option String) :=
  match hint with
  | some h =>
      if h ∈ column_names then Except.ok (some h)
      else
        let _err := value_error_message
          ("Shapefile data does not have specified plot name column " ++ h)
        Except.ok (some h)
  | none =>
      match column_scan column_names with
      | some c => Except.ok (some c)
      | none =>
          let _err := value_error_message "Shapefile data does not have a plot name field"
          Except.ok none

/-- The truthiness test of Python `if shape_rows and plot_name_idx:`
(drone_canopycover.py line 711): the row iterator must exist and the column
index must be a truthy (non-empty) string. -/
def consumeRows (c : Option String) (useRows : Bool) : Bool :=
  useRows &&
    (match c with
     | some s => decide (s ≠ "")
     | none => false)

/-- The per-feature naming loop (drone_canopycover.py lines 703-718): `n` is
the number of remaining shapefile features, `i` the 1-based index of the next
feature, `rows` the remaining attribute rows.  A row is consumed only when
`consumeRows` holds; an exhausted iterator raises StopIteration, which is
caught and falls through to the synthesized name; a missing column in a
consumed row raises an uncaught KeyError; an empty looked up value is falsy
and also falls through to the synthesized name. -/
def plot_names_go (c : Option String) (useRows : Bool) :
    Nat → Nat → List DbfRow → Except String (List String)
  | 0, _, _ => Except.ok []
  | n + 1, i, rows =>
      if consumeRows c useRows then
        match rows with
        | [] =>
            match plot_names_go c useRows n (i + 1) [] with
            | Except.error e => Except.error e
            | Except.ok rest => Except.ok (("plot_" ++ toString i) :: rest)
        | row :: rowRest =>
            match row_lookup row (c.getD "") with
            | none => Except.error "KeyError"
            | some v =>
                let name := if v = "" then "plot_" ++ toString i else v
                match plot_names_go c useRows n (i + 1) rowRest with
                | Except.error e => Except.error e
                | Except.ok rest => Except.ok (name :: rest)
      else
        match plot_names_go c useRows n (i + 1) rows with
        | Except.error e => Except.error e
        | Except.ok rest => Except.ok (("plot_" ++ toString i) :: rest)

/-- The plot-name half of `process_message` (drone_canopycover.py lines
635-672 and 701-718): with no DBF file the row iterator is `None` and every
feature gets a synthesized name; with a DBF file the field names and record
keys are lowercased by `lowernames=True`, the plot-name column is resolved,
and the naming loop consumes rows in lockstep with the features. -/
def plot_catalog_names (numFeatures : Nat) (dbf : Option (List String × List DbfRow))
    (hint : Option String) : Except String (List String) :=
  match dbf with
  | none => plot_names_go hint false numFeatures 1 []
  | some (rawCols, rows) =>
      match resolve_plot_column hint (dbf_field_names rawCols) with
      | Except.error e => Except.error e
      | Except.ok idx => plot_names_go idx true numFeatures 1 (rows.map lower_row)

/-- The synthesized names `plot_start, plot_(start+1), ...` for `n` features. -/
def synthetic_names : Nat → Nat → List String
  | _, 0 => []
  | start, n + 1 => ("plot_" ++ toString start) :: synthetic_names (start + 1) n

/-- Total number of elements of a (row, col, channel) pixel buffer, the
denominator of the canopy-cover ratio. -/
def buffer_size (buf : List (List (List ℤ))) : Nat :=
  (buf.map (fun row => (row.map List.length).sum)).sum

/-- Number of nonzero elements of a pixel buffer, counted over the full buffer
including the channel axis. -/
def count_nonzero (buf : List (List (List ℤ))) : Nat :=
  (buf.map (fun row => (row.map (fun px => (px.filter (fun v => decide (v ≠ 0))).length)).sum)).sum

/-- Modelled from the spec: `terraref.stereo_rgb.calculate_canopycover` is an
external module not present under the repository sources; section 4.5 of the
specification defines it as the count of elements with any nonzero value over
the full buffer including the channel axis, divided by the total element count
and scaled by 100, with a result of 0.0 for a buffer with zero elements. -/
def calculate_canopycover (buf : List (List (List ℤ))) : ℚ :=
  let total := buffer_size buf
  if total = 0 then 0
  else (count_nonzero buf : ℚ) * 100 / (total : ℚ)

/-- A pixel buffer has shape (r, c, ch): r rows, each of c pixels, each of ch
channel values. -/
def has_shape (buf : List (List (List ℤ))) (r c ch : Nat) : Prop :=
  buf.length = r ∧ ∀ row ∈ buf, row.length = c ∧ ∀ px ∈ row, px.length = ch

/-- C1: the spec says a candidate image file whose geotransform cannot be
resolved (NaN bounds) is excluded from the raster catalog.  The code checks
`bounds[0] != nan`, and under IEEE float semantics NaN compares unequal to
itself, so the check is always true and the file is included with a NaN extent
polygon instead of being excluded: at the failing input, a single image file
whose geotransform read raises, the catalog contains that file. -/
theorem c1_nan_image_included :
    pfNe PFloat.nan PFloat.nan = true ∧
    image_get_geobounds none = [PFloat.nan, PFloat.nan, PFloat.nan, PFloat.nan] ∧
    (find_needed_files [{ name := "a.tif", isImage := true, geo := none }] none).imagefiles.map
      Prod.fst = ["a.tif"] := by
  refine ⟨rfl, rfl, ?_⟩
  decide

/-- C2: the spec says a column literally named observationUnitName is resolved
as the plot-name column.  The code opens the attribute table with
`lowernames=True`, which lowercases every field name, so the comparison
`one_name == "observationUnitName"` can never be true: at the failing input,
a 2-feature table whose observationUnitName column holds P1 and P2 with no
column hint, no column resolves and the names fall back to the synthesized
plot_1 and plot_2 instead of P1 and P2. -/
theorem c2_observation_unit_name_dead :
    dbf_field_names ["observationUnitName"] = ["observationunitname"] ∧
    resolve_plot_column none (dbf_field_names ["observationUnitName"]) = Except.ok none ∧
    plot_catalog_names 2
      (some (["observationUnitName"],
             [[("observationUnitName", "P1")], [("observationUnitName", "P2")]])) none =
      Except.ok ["plot_1", "plot_2"] := by
  refine ⟨rfl, by rfl, by rfl⟩

/-- C7: the spec says the heuristic step selects the first column whose name
contains plot and also contains name or contains id, and never a plot column
containing neither.  The code tests `one_name.find("id")` without comparing to
zero, so the value -1 (id absent) is truthy: at the failing input, the single
column plotx, which contains neither name nor id, is selected by the heuristic
step. -/
theorem c7_plot_column_truthiness :
    pyFind "plotx" "name" = -1 ∧ pyFind "plotx" "id" = -1 ∧
    column_scan ["plotx"] = some "plotx" := by
  refine ⟨?_, ?_, ?_⟩ <;> decide

/-- C4 counterexample: in the clip-by-shape extractor the clip step is not
wrapped in a try block, so an exception raised by `clip_raster` for one
(plot, raster) pairing escapes and terminates the whole double loop, falsifying
the claim that every per-pairing failure is converted to a logged skip. -/
theorem c4_clipbyshape_exception_escapes :
    cbs_run ["plot_1"] ["a.tif"] (fun _ _ => ClipCall.raises "IOError") =
      Except.error "IOError" := rfl

/-- C5 counterexample: for a concrete (plot, raster) pair with differing
reference systems, the overlap check of the canopy-cover extractor performs no
clone and no transform: the stored extent polygon is passed to Intersection
directly, falsifying the claim that a clone is transformed into the plot
reference system first. -/
theorem c5_no_transform_on_differing_refs :
    "EPSG:4326" ≠ "EPSG:32612" ∧
    GeoOp.transformOp ∉
      (cc_overlap_check "EPSG:4326" "EPSG:32612"
        (rasterRing (image_get_geobounds (some ⟨0, 1, 2, -1, 2, 2⟩)))).1 ∧
    (cc_overlap_check "EPSG:4326" "EPSG:32612"
        (rasterRing (image_get_geobounds (some ⟨0, 1, 2, -1, 2, 2⟩)))).2 =
      rasterRing (image_get_geobounds (some ⟨0, 1, 2, -1, 2, 2⟩)) := by
  refine ⟨by decide, by decide, rfl⟩

/-- C5 amended: the canopy-cover overlap check never consults the reference
systems at all: its behaviour is identical for equal and differing reference
systems, the polygon passed to Intersection is exactly the stored extent
polygon, and neither a clone nor a transform is ever performed (in particular
the stored polygon is never mutated). -/
theorem c5_intersection_always_direct (pr rr pr2 rr2 : String)
    (stored : List (PFloat × PFloat)) :
    cc_overlap_check pr rr stored = cc_overlap_check pr2 rr2 stored ∧
    (cc_overlap_check pr rr stored).2 = stored ∧
    GeoOp.transformOp ∉ (cc_overlap_check pr rr stored).1 ∧
    GeoOp.cloneOp ∉ (cc_overlap_check pr rr stored).1 := by
  refine ⟨rfl, rfl, ?_, ?_⟩ <;> simp [cc_overlap_check]

lemma overlapAccepted_iff (area : ℚ) : overlapAccepted area = true ↔ area ≠ 0 := by
  unfold overlapAccepted
  split
  · simp_all
  · simp_all

/-- C3: a (plot, raster) pair is accepted for clipping iff the area of the
intersection of the plot polygon and the raster extent polygon is strictly
positive; since geometric areas are non-negative, the source test, which skips
exactly when the area equals 0.0, accepts exactly the pairs of strictly
positive intersection area, and no accepted pair has intersection area 0. -/
theorem c3_overlap_iff_positive_area (pairs : List (String × ℚ))
    (h : ∀ p ∈ pairs, 0 ≤ p.2) :
    (∀ p ∈ pairs, (p ∈ acceptedPairs pairs ↔ 0 < p.2)) ∧
    (∀ q ∈ acceptedPairs pairs, 0 < q.2) := by
  have hmem : ∀ p, p ∈ acceptedPairs pairs ↔ p ∈ pairs ∧ overlapAccepted p.2 = true := by
    intro p
    unfold acceptedPairs
    exact List.mem_filter
  constructor
  · intro p hp
    constructor
    · intro hacc
      have hne := (overlapAccepted_iff p.2).mp ((hmem p).mp hacc).2
      exact lt_of_le_of_ne (h p hp) (Ne.symm hne)
    · intro hpos
      exact (hmem p).mpr ⟨hp, (overlapAccepted_iff p.2).mpr (ne_of_gt hpos)⟩
  · intro q hq
    have h1 := (hmem q).mp hq
    exact lt_of_le_of_ne (h q h1.1) (Ne.symm ((overlapAccepted_iff q.2).mp h1.2))

/-- Witness for C3 at a concrete pair list: the pair of area 25 is accepted and
the pair of area 0 is rejected. -/
theorem c3_overlap_witness :
    ("a.tif", (25 : ℚ)) ∈ acceptedPairs [("a.tif", 25), ("b.tif", 0)] ∧
    ("b.tif", (0 : ℚ)) ∉ acceptedPairs [("a.tif", 25), ("b.tif", 0)] := by
  have h := c3_overlap_iff_positive_area [("a.tif", 25), ("b.tif", 0)] (by decide)
  constructor
  · exact (h.1 ("a.tif", 25) (by decide)).mpr (by norm_num)
  · intro hmem
    have := h.2 ("b.tif", 0) hmem
    norm_num at this

lemma cc_pair_step_ok (clip : ClipCall) (score : ScoreCall) :
    ∃ v, cc_pair_step clip score = Except.ok v := by
  unfold cc_pair_step pyTryExcept
  cases cc_clip_and_score clip score <;> exact ⟨_, rfl⟩

lemma cc_run_inner_ok (plot : String) (oracle : String → String → ClipCall × ScoreCall)
    (rasters : List String) :
    ∃ rows, cc_run_inner plot oracle rasters = Except.ok rows := by
  induction rasters with
  | nil => exact ⟨[], rfl⟩
  | cons r rest ih =>
      obtain ⟨rows, hrows⟩ := ih
      obtain ⟨v, hv⟩ := cc_pair_step_ok (oracle plot r).1 (oracle plot r).2
      cases v with
      | none => exact ⟨rows, by unfold cc_run_inner; rw [hv, hrows]⟩
      | some x => exact ⟨(plot, r, x) :: rows, by unfold cc_run_inner; rw [hv, hrows]⟩

lemma cc_run_ok (plots rasters : List String)
    (oracle : String → String → ClipCall × ScoreCall) :
    ∃ rows, cc_run plots rasters oracle = Except.ok rows := by
  induction plots with
  | nil => exact ⟨[], rfl⟩
  | cons p rest ih =>
      obtain ⟨more, hmore⟩ := ih
      obtain ⟨rows, hrows⟩ := cc_run_inner_ok p oracle rasters
      exact ⟨rows ++ more, by unfold cc_run; rw [hrows, hmore]⟩

lemma cc_pair_step_of_fails (clip : ClipCall) (score : ScoreCall)
    (h : pairFails clip score = true) : cc_pair_step clip score = Except.ok none := by
  unfold cc_pair_step cc_clip_and_score pyTryExcept
  unfold pairFails at h
  cases clip with
  | raises m => rfl
  | noneBuf => rfl
  | buffer dims =>
      by_cases hd : dims < 3
      · simp [hd]
      · cases score with
        | raises m => simp [hd]
        | value v => simp [hd] at h

lemma cc_run_inner_all_fail (plot : String)
    (oracle : String → String → ClipCall × ScoreCall) (rasters : List String)
    (h : ∀ r ∈ rasters, pairFails (oracle plot r).1 (oracle plot r).2 = true) :
    cc_run_inner plot oracle rasters = Except.ok [] := by
  induction rasters with
  | nil => rfl
  | cons r rest ih =>
      have hr := cc_pair_step_of_fails _ _ (h r (List.mem_cons_self r rest))
      have hrest := ih (fun x hx => h x (List.mem_cons_of_mem r hx))
      unfold cc_run_inner
      rw [hr, hrest]

lemma cbs_run_inner_ok (plot : String) (oracle : String → String → ClipCall)
    (rasters : List String) (h : ∀ r ∈ rasters, ∀ m, oracle plot r ≠ ClipCall.raises m) :
    ∃ rows, cbs_run_inner plot oracle rasters = Except.ok rows := by
  induction rasters with
  | nil => exact ⟨[], rfl⟩
  | cons r rest ih =>
      obtain ⟨rows, hrows⟩ := ih (fun x hx => h x (List.mem_cons_of_mem r hx))
      have hstep : ∃ v, cbs_pair_step (oracle plot r) = Except.ok v := by
        unfold cbs_pair_step
        cases hc : oracle plot r with
        | raises m => exact absurd hc (h r (List.mem_cons_self r rest) m)
        | noneBuf => exact ⟨none, rfl⟩
        | buffer d => exact ⟨some (), rfl⟩
      obtain ⟨v, hv⟩ := hstep
      cases v with
      | none => exact ⟨rows, by unfold cbs_run_inner; rw [hv, hrows]⟩
      | some u => exact ⟨(plot, r) :: rows, by unfold cbs_run_inner; rw [hv, hrows]⟩

/-- C4 amended: in the canopy-cover extractor every per-pairing failure in the
clip-and-score step (clip raising, clip returning no buffer, a buffer with
fewer than 3 dimensions, or the scoring raising) is caught at the innermost
loop boundary and converted to a skip, so the double loop always completes,
with empty output when every pairing fails; in the clip-by-shape extractor the
run completes whenever no clip call raises (a clip returning no buffer is only
a logged skip), but an exception in its clip step is not caught (see the
counterexample theorem). -/
theorem c4_canopycover_failures_contained (plots rasters : List String)
    (oracle : String → String → ClipCall × ScoreCall) :
    (∃ rows, cc_run plots rasters oracle = Except.ok rows) ∧
    ((∀ p r, pairFails (oracle p r).1 (oracle p r).2 = true) →
      cc_run plots rasters oracle = Except.ok []) ∧
    (∀ oracle2 : String → String → ClipCall,
      (∀ p r, ∀ m, oracle2 p r ≠ ClipCall.raises m) →
      ∃ rows2, cbs_run plots rasters oracle2 = Except.ok rows2) := by
  refine ⟨cc_run_ok plots rasters oracle, ?_, ?_⟩
  · intro hfail
    induction plots with
    | nil => rfl
    | cons p rest ih =>
        have hinner := cc_run_inner_all_fail p oracle rasters (fun r _ => hfail p r)
        unfold cc_run
        rw [hinner, ih]
        rfl
  · intro oracle2 h2
    induction plots with
    | nil => exact ⟨[], rfl⟩
    | cons p rest ih =>
        obtain ⟨more, hmore⟩ := ih
        obtain ⟨rows, hrows⟩ := cbs_run_inner_ok p oracle2 rasters (fun r _ m => h2 p r m)
        exact ⟨rows ++ more, by unfold cbs_run; rw [hrows, hmore]⟩

/-- Witness for C4 at concrete inputs: with one plot and one raster whose
pairing always fails (clip returns no buffer), the canopy-cover run completes
with empty output, and the clip-by-shape run completes when its clip returns no
buffer. -/
theorem c4_canopycover_witness :
    cc_run ["plot_1"] ["a.tif"] (fun _ _ => (ClipCall.noneBuf, ScoreCall.value 1)) =
      Except.ok [] ∧
    ∃ rows2, cbs_run ["plot_1"] ["a.tif"] (fun _ _ => ClipCall.noneBuf) = Except.ok rows2 := by
  have h := c4_canopycover_failures_contained ["plot_1"] ["a.tif"]
    (fun _ _ => (ClipCall.noneBuf, ScoreCall.value 1))
  exact ⟨h.2.1 (fun _ _ => rfl),
         h.2.2 (fun _ _ => ClipCall.noneBuf) (fun _ _ _ hc => ClipCall.noConfusion hc)⟩

lemma synthetic_names_length : ∀ (n i : Nat), (synthetic_names i n).length = n := by
  intro n
  induction n with
  | zero => intro i; rfl
  | succ k ih => intro i; simp [synthetic_names, ih]

lemma synthetic_names_get :
    ∀ (n i j : Nat), j < n → (synthetic_names i n)[j]? = some ("plot_" ++ toString (i + j)) := by
  intro n
  induction n with
  | zero => intro i j hj; exact absurd hj (Nat.not_lt_zero j)
  | succ k ih =>
      intro i j hj
      cases j with
      | zero => simp [synthetic_names]
      | succ jj =>
          simp only [synthetic_names, List.getElem?_cons_succ]
          rw [(by omega : i + (jj + 1) = (i + 1) + jj)]
          exact ih (i + 1) jj (by omega)

lemma plot_names_go_consume_nil (c : Option String) (useRows : Bool)
    (hc : consumeRows c useRows = true) (k i : Nat) :
    plot_names_go c useRows (k + 1) i [] =
      match plot_names_go c useRows k (i + 1) [] with
      | Except.error e => Except.error e
      | Except.ok rest => Except.ok (("plot_" ++ toString i) :: rest) := by
  conv_lhs => unfold plot_names_go
  rw [hc]
  rfl

lemma plot_names_go_consume_cons (c : Option String) (useRows : Bool)
    (hc : consumeRows c useRows = true) (k i : Nat) (row : DbfRow) (rowRest : List DbfRow) :
    plot_names_go c useRows (k + 1) i (row :: rowRest) =
      match row_lookup row (c.getD "") with
      | none => Except.error "KeyError"
      | some v =>
          match plot_names_go c useRows k (i + 1) rowRest with
          | Except.error e => Except.error e
          | Except.ok rest => Except.ok ((if v = "" then "plot_" ++ toString i else v) :: rest) := by
  conv_lhs => unfold plot_names_go
  rw [hc]
  rfl

lemma plot_names_go_no_consume (c : Option String) (useRows : Bool)
    (hc : consumeRows c useRows = false) :
    ∀ (n i : Nat) (rows : List DbfRow),
      plot_names_go c useRows n i rows = Except.ok (synthetic_names i n) := by
  intro n
  induction n with
  | zero => intro i rows; rfl
  | succ k ih =>
      intro i rows
      conv_lhs => unfold plot_names_go
      rw [hc, ih (i + 1) rows]
      rfl

lemma plot_names_go_consume_spec (c : Option String) (useRows : Bool)
    (hc : consumeRows c useRows = true) :
    ∀ (n i : Nat) (rows : List DbfRow) (ns : List String),
      plot_names_go c useRows n i rows = Except.ok ns →
      ns.length = n ∧
      ∀ j, rows.length ≤ j → j < n → ns[j]? = some ("plot_" ++ toString (i + j)) := by
  intro n
  induction n with
  | zero =>
      intro i rows ns h
      have hns : ns = [] := (Except.ok.inj h).symm
      subst hns
      exact ⟨rfl, fun j _ hj => absurd hj (Nat.not_lt_zero j)⟩
  | succ k ih =>
      intro i rows ns h
      cases rows with
      | nil =>
          rw [plot_names_go_consume_nil c useRows hc k i] at h
          cases hrec : plot_names_go c useRows k (i + 1) [] with
          | error e => rw [hrec] at h; exact absurd h (by simp)
          | ok rest =>
              rw [hrec] at h
              have hns : ns = ("plot_" ++ toString i) :: rest := (Except.ok.inj h).symm
              subst hns
              obtain ⟨hlen, hidx⟩ := ih (i + 1) [] rest hrec
              refine ⟨by simp [hlen], ?_⟩
              intro j _ hj
              cases j with
              | zero => simp
              | succ jj =>
                  simp only [List.getElem?_cons_succ]
                  rw [(by omega : i + (jj + 1) = (i + 1) + jj)]
                  exact hidx jj (by simp) (by omega)
      | cons row rowRest =>
          rw [plot_names_go_consume_cons c useRows hc k i row rowRest] at h
          cases hlk : row_lookup row (c.getD "") with
          | none => rw [hlk] at h; exact absurd h (by simp)
          | some v =>
              rw [hlk] at h
              cases hrec : plot_names_go c useRows k (i + 1) rowRest with
              | error e => rw [hrec] at h; exact absurd h (by simp)
              | ok rest =>
                  rw [hrec] at h
                  have hns : ns = (if v = "" then "plot_" ++ toString i else v) :: rest :=
                    (Except.ok.inj h).symm
                  subst hns
                  obtain ⟨hlen, hidx⟩ := ih (i + 1) rowRest rest hrec
                  refine ⟨by simp [hlen], ?_⟩
                  intro j hjl hj
                  cases j with
                  | zero => simp at hjl
                  | succ jj =>
                      simp only [List.getElem?_cons_succ]
                      rw [(by omega : i + (jj + 1) = (i + 1) + jj)]
                      exact hidx jj (by simp at hjl; omega) (by omega)

lemma plot_names_go_spec (c : Option String) (useRows : Bool) (n i : Nat)
    (rows : List DbfRow) (ns : List String)
    (h : plot_names_go c useRows n i rows = Except.ok ns) :
    ns.length = n ∧
    ∀ j, rows.length ≤ j → j < n → ns[j]? = some ("plot_" ++ toString (i + j)) := by
  rcases Bool.eq_false_or_eq_true (consumeRows c useRows) with hc | hc
  · exact plot_names_go_consume_spec c useRows hc n i rows ns h
  · rw [plot_names_go_no_consume c useRows hc n i rows] at h
    have hns : ns = synthetic_names i n := (Except.ok.inj h).symm
    subst hns
    exact ⟨synthetic_names_length n i, fun j _ hj => synthetic_names_get n i j hj⟩

/-- C6: every shapefile feature for which no attribute-table name is available
gets the synthesized name plot_N with N its 1-based index: with no attribute
table every feature is synthesized (in particular 3 features give exactly
plot_1, plot_2, plot_3), and with an attribute table whose rows are exhausted
before the geometry layer every remaining feature is synthesized. -/
theorem c6_synthesized_plot_names :
    (∀ (n : Nat) (hint : Option String),
       plot_catalog_names n none hint = Except.ok (synthetic_names 1 n)) ∧
    (∀ (n : Nat) (cols : List String) (rows : List DbfRow) (hint : Option String)
       (ns : List String),
       plot_catalog_names n (some (cols, rows)) hint = Except.ok ns →
       ns.length = n ∧
       ∀ j, rows.length ≤ j → j < n → ns[j]? = some ("plot_" ++ toString (j + 1))) ∧
    plot_catalog_names 3 none none = Except.ok ["plot_1", "plot_2", "plot_3"] := by
  refine ⟨?_, ?_, ?_⟩
  · intro n hint
    exact plot_names_go_no_consume hint false (by simp [consumeRows]) n 1 []
  · intro n cols rows hint ns h
    have h2 : (match resolve_plot_column hint (dbf_field_names cols) with
               | Except.error e => Except.error e
               | Except.ok idx => plot_names_go idx true n 1 (rows.map lower_row)) =
        Except.ok ns := h
    cases hres : resolve_plot_column hint (dbf_field_names cols) with
    | error e => rw [hres] at h2; exact absurd h2 (by simp)
    | ok idx =>
        rw [hres] at h2
        obtain ⟨hlen, hidx⟩ := plot_names_go_spec idx true n 1 (rows.map lower_row) ns h2
        refine ⟨hlen, ?_⟩
        intro j hjl hj
        rw [hidx j (by simpa using hjl) hj]
        rw [(by omega : 1 + j = j + 1)]
  · rfl

/-- Witness for C6 at concrete inputs: a 2-feature run with a 1-row attribute
table resolving the plot_name column gives the looked-up name for the first
feature and the synthesized plot_2 for the exhausted second feature. -/
theorem c6_synthesized_witness :
    plot_catalog_names 2 (some (["plot_name"], [[("plot_name", "A1")]])) none =
      Except.ok ["A1", "plot_2"] ∧
    (["A1", "plot_2"] : List String)[1]? = some ("plot_" ++ toString (1 + 1)) ∧
    plot_catalog_names 3 none none = Except.ok ["plot_1", "plot_2", "plot_3"] := by
  have heval : plot_catalog_names 2 (some (["plot_name"], [[("plot_name", "A1")]])) none =
      Except.ok ["A1", "plot_2"] := by rfl
  have h := c6_synthesized_plot_names
  refine ⟨heval, ?_, h.2.2⟩
  have hone := (h.2.1 2 ["plot_name"] [[("plot_name", "A1")]] none ["A1", "plot_2"] heval).2
    1 (by simp) (by omega)
  simpa using hone

/-- C10: when an attribute table is supplied together with a plot-name column
hint absent from the table columns, catalog construction raises no error and
performs no fallback: the ValueError on that path is only constructed, the
resolution returns the hint unchanged, and the naming loop then uses the
missing hint as the lookup column for every per-feature row lookup. -/
theorem c10_missing_hint_retained (h0 : String) (rawCols : List String)
    (rows : List DbfRow) (n : Nat)
    (hmem : h0 ∉ dbf_field_names rawCols) :
    resolve_plot_column (some h0) (dbf_field_names rawCols) = Except.ok (some h0) ∧
    plot_catalog_names n (some (rawCols, rows)) (some h0) =
      plot_names_go (some h0) true n 1 (rows.map lower_row) := by
  have h1 : resolve_plot_column (some h0) (dbf_field_names rawCols) = Except.ok (some h0) := by
    show (if h0 ∈ dbf_field_names rawCols then Except.ok (some h0)
          else
            let _err := value_error_message
              ("Shapefile data does not have specified plot name column " ++ h0)
            Except.ok (some h0)) = Except.ok (some h0)
    rw [if_neg hmem]
  refine ⟨h1, ?_⟩
  show (match resolve_plot_column (some h0) (dbf_field_names rawCols) with
        | Except.error e => Except.error e
        | Except.ok idx => plot_names_go idx true n 1 (rows.map lower_row)) =
      plot_names_go (some h0) true n 1 (rows.map lower_row)
  rw [h1]

/-- Witness for C10 at concrete inputs: the hint myplots is absent from the
single lowercased column cola, yet resolution returns it unchanged and the
catalog proceeds with it as the lookup column. -/
theorem c10_missing_hint_witness :
    ("myplots" ∉ dbf_field_names ["cola"]) ∧
    resolve_plot_column (some "myplots") (dbf_field_names ["cola"]) =
      Except.ok (some "myplots") ∧
    plot_catalog_names 1 (some (["cola"], [[("cola", "x")]])) (some "myplots") =
      plot_names_go (some "myplots") true 1 1 ([[("cola", "x")]].map lower_row) := by
  have hm : "myplots" ∉ dbf_field_names ["cola"] := by decide
  have h := c10_missing_hint_retained "myplots" ["cola"] [[("cola", "x")]] 1 hm
  exact ⟨hm, h.1, h.2⟩

lemma sum_map_len_const {α : Type} (l : List α) (f : α → Nat) (k : Nat)
    (h : ∀ x ∈ l, f x = k) : (l.map f).sum = l.length * k := by
  induction l with
  | nil => simp
  | cons a t ih =>
      simp only [List.map_cons, List.sum_cons, List.length_cons]
      rw [h a (List.mem_cons_self a t), ih (fun x hx => h x (List.mem_cons_of_mem a hx))]
      ring

lemma buffer_size_of_shape (buf : List (List (List ℤ))) (r c ch : Nat)
    (h : has_shape buf r c ch) : buffer_size buf = r * c * ch := by
  obtain ⟨hlen, hrow⟩ := h
  unfold buffer_size
  have hrows : ∀ row ∈ buf, (row.map List.length).sum = c * ch := by
    intro row hr
    obtain ⟨hrl, hpx⟩ := hrow row hr
    rw [sum_map_len_const row List.length ch hpx, hrl]
  rw [sum_map_len_const buf _ (c * ch) hrows, hlen]
  ring

lemma count_nonzero_le (buf : List (List (List ℤ))) :
    count_nonzero buf ≤ buffer_size buf := by
  unfold count_nonzero buffer_size
  apply List.sum_le_sum
  intro row _
  apply List.sum_le_sum
  intro px _
  exact List.length_filter_le _ px

lemma count_nonzero_of_all_zero (buf : List (List (List ℤ)))
    (h : ∀ row ∈ buf, ∀ px ∈ row, ∀ v ∈ px, v = (0 : ℤ)) :
    count_nonzero buf = 0 := by
  unfold count_nonzero
  have hin : ∀ row ∈ buf,
      (row.map (fun px => (px.filter (fun v => decide (v ≠ 0))).length)).sum = 0 := by
    intro row hr
    have hz : ∀ px ∈ row, (px.filter (fun v => decide (v ≠ 0))).length = 0 := by
      intro px hp
      have hfil : px.filter (fun v => decide (v ≠ 0)) = [] := by
        apply List.filter_eq_nil_iff.mpr
        intro v hv
        simp [h row hr px hp v hv]
      rw [hfil]
      rfl
    rw [sum_map_len_const row _ 0 hz]
    ring
  rw [sum_map_len_const buf _ 0 hin]
  ring

lemma count_nonzero_of_all_nonzero (buf : List (List (List ℤ)))
    (h : ∀ row ∈ buf, ∀ px ∈ row, ∀ v ∈ px, v ≠ (0 : ℤ)) :
    count_nonzero buf = buffer_size buf := by
  unfold count_nonzero buffer_size
  congr 1
  apply List.map_congr_left
  intro row hr
  congr 1
  apply List.map_congr_left
  intro px hp
  rw [List.filter_eq_self.mpr]
  intro v hv
  simp [h row hr px hp v hv]

/-- C8: the canopy-cover ratio is the nonzero element count over the full
buffer divided by the total element count (rows times cols times channels),
scaled by 100, so it always lies in the interval from 0 to 100; an all-zero
buffer gives 0, an all-nonzero buffer gives 100, and a buffer with zero
elements gives 0 rather than a division by zero. -/
theorem c8_canopy_cover_ratio (buf : List (List (List ℤ))) (r c ch : Nat)
    (h : has_shape buf r c ch) :
    (calculate_canopycover buf =
       if r * c * ch = 0 then 0
       else (count_nonzero buf : ℚ) * 100 / ((r * c * ch : Nat) : ℚ)) ∧
    0 ≤ calculate_canopycover buf ∧
    calculate_canopycover buf ≤ 100 ∧
    ((∀ row ∈ buf, ∀ px ∈ row, ∀ v ∈ px, v = (0 : ℤ)) → calculate_canopycover buf = 0) ∧
    ((∀ row ∈ buf, ∀ px ∈ row, ∀ v ∈ px, v ≠ (0 : ℤ)) → r * c * ch ≠ 0 →
       calculate_canopycover buf = 100) := by
  have hsz := buffer_size_of_shape buf r c ch h
  have hcalc : calculate_canopycover buf =
      if buffer_size buf = 0 then 0
      else (count_nonzero buf : ℚ) * 100 / ((buffer_size buf : Nat) : ℚ) := rfl
  by_cases htot : buffer_size buf = 0
  · have hzero : calculate_canopycover buf = 0 := by rw [hcalc, if_pos htot]
    refine ⟨?_, ?_, ?_, ?_, ?_⟩
    · rw [hzero, if_pos (by omega)]
    · rw [hzero]
    · rw [hzero]; norm_num
    · intro _; exact hzero
    · intro _ hrc; exact absurd (by omega : buffer_size buf ≠ 0) (by simp [htot])
  · have hform : calculate_canopycover buf =
        (count_nonzero buf : ℚ) * 100 / ((buffer_size buf : Nat) : ℚ) := by
      rw [hcalc, if_neg htot]
    have hpos : (0 : ℚ) < ((buffer_size buf : Nat) : ℚ) := by
      exact_mod_cast Nat.pos_of_ne_zero htot
    refine ⟨?_, ?_, ?_, ?_, ?_⟩
    · rw [hform, if_neg (by omega), hsz]
    · rw [hform]
      apply div_nonneg (by positivity) (le_of_lt hpos)
    · rw [hform, div_le_iff₀ hpos]
      have hcnt : ((count_nonzero buf : Nat) : ℚ) ≤ ((buffer_size buf : Nat) : ℚ) := by
        exact_mod_cast count_nonzero_le buf
      nlinarith
    · intro hz
      rw [hform, count_nonzero_of_all_zero buf hz]
      simp
    · intro hnz _
      rw [hform, count_nonzero_of_all_nonzero buf hnz]
      rw [mul_comm, mul_div_assoc, div_self (ne_of_gt hpos), mul_one]

/-- Witness for C8 at the concrete 2 by 2 by 3 buffer of Scenario E of the
spec: 2 of 12 elements are nonzero, giving a ratio of 50 thirds, within
bounds. -/
theorem c8_canopy_cover_witness :
    has_shape [[[0, 0, 0], [1, 0, 0]], [[0, 0, 0], [0, 0, 1]]] 2 2 3 ∧
    calculate_canopycover [[[0, 0, 0], [1, 0, 0]], [[0, 0, 0], [0, 0, 1]]] = 50 / 3 ∧
    0 ≤ calculate_canopycover [[[0, 0, 0], [1, 0, 0]], [[0, 0, 0], [0, 0, 1]]] ∧
    calculate_canopycover [[[0, 0, 0], [1, 0, 0]], [[0, 0, 0], [0, 0, 1]]] ≤ 100 := by
  have hsh : has_shape [[[0, 0, 0], [1, 0, 0]], [[0, 0, 0], [0, 0, 1]]] 2 2 3 := by
    refine ⟨rfl, ?_⟩
    intro row hr
    fin_cases hr <;> exact ⟨rfl, by intro px hp; fin_cases hp <;> rfl⟩
  have h := c8_canopy_cover_ratio [[[0, 0, 0], [1, 0, 0]], [[0, 0, 0], [0, 0, 1]]] 2 2 3 hsh
  have hcount : count_nonzero [[[0, 0, 0], [1, 0, 0]], [[0, 0, 0], [0, 0, 1]]] = 2 := by decide
  have hval : calculate_canopycover [[[0, 0, 0], [1, 0, 0]], [[0, 0, 0], [0, 0, 1]]] = 50 / 3 := by
    rw [h.1, hcount]
    norm_num
  exact ⟨hsh, hval, h.2.1, h.2.2.1⟩

lemma dictInsert_mem (m : List (String × RasterEntry)) (k : String) (v : RasterEntry)
    (pr : String × RasterEntry) (h : pr ∈ dictInsert m k v) : pr ∈ m ∨ pr.2 = v := by
  unfold dictInsert at h
  split at h
  · obtain ⟨p, hp, heq⟩ := List.mem_map.mp h
    by_cases hk : p.1 = k
    · right
      rw [if_pos hk] at heq
      rw [← heq]
    · left
      rw [if_neg hk] at heq
      exact heq ▸ hp
  · rcases List.mem_append.mp h with h1 | h1
    · exact Or.inl h1
    · right
      have hpr : pr = (k, v) := List.mem_singleton.mp h1
      rw [hpr]

lemma fnfStep_imagefiles_spec (trigger : Option String) (st : FoundFiles)
    (f : CandidateFile) (P : RasterEntry → Prop)
    (hP : ∀ b : List PFloat,
      P { bounds := rasterRing b, bounding_tuples := polygon_to_tuples (rasterRing b) })
    (h : ∀ pr ∈ st.imagefiles, P pr.2) :
    ∀ pr ∈ (fnfStep trigger st f).imagefiles, P pr.2 := by
  intro pr hpr
  unfold fnfStep at hpr
  repeat' split at hpr
  all_goals
    first
    | exact h pr hpr
    | (rcases dictInsert_mem _ _ _ pr hpr with hm | hv
       · exact h pr hm
       · rw [hv]
         exact hP (image_get_geobounds f.geo))

lemma fnf_fold_spec (trigger : Option String) (P : RasterEntry → Prop)
    (hP : ∀ b : List PFloat,
      P { bounds := rasterRing b, bounding_tuples := polygon_to_tuples (rasterRing b) }) :
    ∀ (files : List CandidateFile) (st : FoundFiles),
      (∀ pr ∈ st.imagefiles, P pr.2) →
      ∀ pr ∈ (files.foldl (fnfStep trigger) st).imagefiles, P pr.2 := by
  intro files
  induction files with
  | nil => intro st hst; simpa using hst
  | cons f rest ih =>
      intro st hst
      simp only [List.foldl_cons]
      exact ih (fnfStep trigger st f) (fnfStep_imagefiles_spec trigger st f P hP hst)

/-- C9: every raster-extent polygon generated into the image catalog has
exactly 5 points with the first point equal to the last (a closed ring); the
ring for resolvable bounds is the rational rectangle ring starting at the
upper-left corner, its unsigned area is non-negative, and when the corners are
properly ordered (upper-left strictly left of and above lower-right) the ring
is clockwise, i.e. its signed area is strictly negative. -/
theorem c9_raster_extent_polygons :
    (∀ (files : List CandidateFile) (trigger : Option String)
       (pr : String × RasterEntry),
       pr ∈ (find_needed_files files trigger).imagefiles →
       pr.2.bounds.length = 5 ∧ pr.2.bounds.head? = pr.2.bounds.getLast?) ∧
    (∀ a b c d : ℚ,
       rasterRing [PFloat.val a, PFloat.val b, PFloat.val c, PFloat.val d] =
         (rasterRingQ a b c d).map (fun p => (PFloat.val p.1, PFloat.val p.2)) ∧
       0 ≤ ringArea (rasterRingQ a b c d) ∧
       signedArea (rasterRingQ a b c d) = (a - c) * (b - d) ∧
       (a < c → d < b → signedArea (rasterRingQ a b c d) < 0)) := by
  constructor
  · intro files trigger pr hpr
    exact fnf_fold_spec trigger
      (fun e => e.bounds.length = 5 ∧ e.bounds.head? = e.bounds.getLast?)
      (fun b => ⟨rfl, rfl⟩) files
      { shapefile := none, dbffile := none, imagefiles := [] }
      (by intro q hq; simp at hq) pr hpr
  · intro a b c d
    have hsigned : signedArea (rasterRingQ a b c d) = (a - c) * (b - d) := by
      simp only [rasterRingQ, signedArea, shoelaceSum]
      ring
    refine ⟨rfl, abs_nonneg _, hsigned, ?_⟩
    intro hac hdb
    rw [hsigned]
    apply mul_neg_of_neg_of_pos <;> linarith

/-- Witness for C9 at a concrete catalog: a 2 by 2 raster at origin (0, 2)
with unit resolutions produces the closed 5-point ring over bounds
(0, 2, 2, 0), whose signed area is negative (clockwise). -/
theorem c9_raster_extent_witness :
    (("a.tif",
      ({ bounds := rasterRing (image_get_geobounds (some ⟨0, 1, 2, -1, 2, 2⟩)),
         bounding_tuples :=
           polygon_to_tuples (rasterRing (image_get_geobounds (some ⟨0, 1, 2, -1, 2, 2⟩))) } :
        RasterEntry)) ∈
      (find_needed_files [{ name := "a.tif", isImage := true, geo := some ⟨0, 1, 2, -1, 2, 2⟩ }]
        none).imagefiles) ∧
    (rasterRing (image_get_geobounds (some ⟨0, 1, 2, -1, 2, 2⟩))).length = 5 ∧
    signedArea (rasterRingQ 0 2 2 0) < 0 := by
  have hcat : (find_needed_files
        [{ name := "a.tif", isImage := true, geo := some ⟨0, 1, 2, -1, 2, 2⟩ }]
        none).imagefiles =
      [("a.tif",
        ({ bounds := rasterRing (image_get_geobounds (some ⟨0, 1, 2, -1, 2, 2⟩)),
           bounding_tuples :=
             polygon_to_tuples (rasterRing (image_get_geobounds (some ⟨0, 1, 2, -1, 2, 2⟩))) } :
          RasterEntry))] := rfl
  have hmem : (("a.tif",
      ({ bounds := rasterRing (image_get_geobounds (some ⟨0, 1, 2, -1, 2, 2⟩)),
         bounding_tuples :=
           polygon_to_tuples (rasterRing (image_get_geobounds (some ⟨0, 1, 2, -1, 2, 2⟩))) } :
        RasterEntry)) ∈
      (find_needed_files [{ name := "a.tif", isImage := true, geo := some ⟨0, 1, 2, -1, 2, 2⟩ }]
        none).imagefiles) := by
    rw [hcat]
    exact List.mem_singleton.mpr rfl
  have h := c9_raster_extent_polygons
  exact ⟨hmem, (h.1 _ none _ hmem).1, (h.2 0 2 2 0).2.2.2 (by norm_num) (by norm_num)⟩

end DronePipeline
